import Mathlib

/-!
Verification of the `vptstools` HDF5-to-VPTS conversion scripts.

This file gives a shallow embedding, in Lean, of the two Python entry points

  * `src/vptstools/scripts/vph5_to_vpts.py` (Profile extraction, aggregation
    and CSV rendering of ODIM HDF5 vertical-profile containers), and
  * `src/vptstools/bin/vph5_to_vpts.py` (the S3 daily/monthly rebuild loops),

and proves or refutes the behavioural claims made about them.  Python strings
are modelled as `List Char`, HDF5/numpy scalar values as rationals, Python
`dict`s as association lists, and fallible Python code as `Except`/`Option`
valued functions.
-/

namespace Vpts

/-! ### Python string primitives -/

/-- One decimal digit character.  Only ever applied to `n % 10`-style
arguments, the catch-all keeps the function total. -/
def digitChar : Nat → Char
  | 0 => '0'
  | 1 => '1'
  | 2 => '2'
  | 3 => '3'
  | 4 => '4'
  | 5 => '5'
  | 6 => '6'
  | 7 => '7'
  | 8 => '8'
  | 9 => '9'
  | _ => '9'

/-- Fuel-driven helper for `natDigits`; `fuel` bounds the number of digits,
so any `fuel ≥ n + 1` gives the full rendering. -/
def natDigitsAux : Nat → Nat → List Char
  | 0, _ => []
  | fuel + 1, n =>
    if n < 10 then [digitChar n]
    else natDigitsAux fuel (n / 10) ++ [digitChar (n % 10)]

/-- Decimal rendering of a natural number, most significant digit first
(the rendering Python's `str`/`format` produce for non-negative ints). -/
def natDigits (n : Nat) : List Char :=
  natDigitsAux (n + 1) n

/-- Zero-padded decimal rendering, as Python `"%0Nd"` / `str.zfill`. -/
def padNat (w : Nat) (n : Nat) : List Char :=
  List.replicate (w - (natDigits n).length) '0' ++ natDigits n

/-- Boolean prefix test on character lists (Python `str.startswith`). -/
def isPre : List Char → List Char → Bool
  | [], _ => true
  | _ :: _, [] => false
  | a :: as, b :: bs => a == b && isPre as bs

/-- Boolean substring test (Python `pat in s`, `s.find(pat) >= 0`). -/
def substr (pat : List Char) : List Char → Bool
  | [] => isPre pat []
  | c :: rest => isPre pat (c :: rest) || substr pat rest

/-- Fuel-driven helper for `pyReplace`; any `fuel ≥ s.length` computes the
full replacement (each step consumes at least one character of `s`). -/
def pyReplaceAux (pat rep : List Char) : Nat → List Char → List Char
  | 0, s => s
  | _ + 1, [] => []
  | fuel + 1, c :: rest =>
    if pat ≠ [] ∧ isPre pat (c :: rest) = true then
      rep ++ pyReplaceAux pat rep fuel ((c :: rest).drop pat.length)
    else
      c :: pyReplaceAux pat rep fuel rest

/-- Python `s.replace(pat, rep)`: replace every (leftmost, non-overlapping)
occurrence of `pat` in `s` by `rep`.  (For the degenerate `pat = []`, which
the scripts never use, this returns `s` unchanged.) -/
def pyReplace (pat rep s : List Char) : List Char :=
  pyReplaceAux pat rep s.length s

theorem pyReplaceAux_nil (pat rep : List Char) (fuel : Nat) :
    pyReplaceAux pat rep fuel [] = [] := by
  cases fuel <;> rfl

theorem pyReplace_nil (pat rep : List Char) : pyReplace pat rep [] = [] := rfl

theorem digitChar_ne_plus (n : Nat) : digitChar n ≠ '+' := by
  unfold digitChar
  split <;> decide

theorem plus_not_mem_natDigitsAux (fuel n : Nat) : '+' ∉ natDigitsAux fuel n := by
  induction fuel generalizing n with
  | zero => simp [natDigitsAux]
  | succ fuel ih =>
    rw [natDigitsAux]
    split
    · simp only [List.mem_singleton]
      exact fun hc => digitChar_ne_plus n hc.symm
    · intro hmem
      rcases List.mem_append.mp hmem with hl | hr
      · exact ih (n / 10) hl
      · simp only [List.mem_singleton] at hr
        exact digitChar_ne_plus (n % 10) hr.symm

theorem plus_not_mem_natDigits (n : Nat) : '+' ∉ natDigits n :=
  plus_not_mem_natDigitsAux (n + 1) n

theorem plus_not_mem_padNat (w n : Nat) : '+' ∉ padNat w n := by
  intro hmem
  rcases List.mem_append.mp hmem with hl | hr
  · have := List.eq_of_mem_replicate hl
    simp at this
  · exact plus_not_mem_natDigits n hr

theorem isPre_refl (l : List Char) : isPre l l = true := by
  induction l with
  | nil => rfl
  | cons a as ih => simp [isPre, ih]

theorem isPre_plus_head {p : List Char} {c : Char} {rest : List Char}
    (h : isPre ('+' :: p) (c :: rest) = true) : c = '+' := by
  simp only [isPre, Bool.and_eq_true, beq_iff_eq] at h
  exact h.1.symm

theorem pyReplaceAux_of_not_mem {p rep : List Char} (fuel : Nat) (s : List Char)
    (hs : '+' ∉ s) : pyReplaceAux ('+' :: p) rep fuel s = s := by
  induction fuel generalizing s with
  | zero => rfl
  | succ fuel ih =>
    cases s with
    | nil => rfl
    | cons c rest =>
      rw [pyReplaceAux]
      have hc : c ≠ '+' := fun h => hs (h ▸ List.mem_cons_self c rest)
      have hnp : ¬(('+' :: p) ≠ [] ∧ isPre ('+' :: p) (c :: rest) = true) := by
        rintro ⟨-, hpre⟩
        exact hc (isPre_plus_head hpre)
      rw [if_neg hnp]
      exact congrArg (c :: ·) (ih rest (fun h => hs (List.mem_cons_of_mem c h)))

/-- `s.replace` is the identity on a string not containing the first
character of the (non-empty) pattern. -/
theorem pyReplace_of_not_mem {p rep s : List Char}
    (hs : '+' ∉ s) : pyReplace ('+' :: p) rep s = s :=
  pyReplaceAux_of_not_mem s.length s hs

theorem pyReplaceAux_append {p rep : List Char} (body : List Char) (fuel : Nat)
    (hb : '+' ∉ body) (hf : body.length + 1 ≤ fuel) :
    pyReplaceAux ('+' :: p) rep fuel (body ++ '+' :: p) = body ++ rep := by
  induction body generalizing fuel with
  | nil =>
    obtain ⟨f, rfl⟩ : ∃ f, fuel = f + 1 := ⟨fuel - 1, by omega⟩
    rw [List.nil_append, pyReplaceAux]
    have hcond : ('+' :: p) ≠ [] ∧ isPre ('+' :: p) ('+' :: p) = true :=
      ⟨by simp, isPre_refl _⟩
    rw [if_pos hcond, List.drop_length, pyReplaceAux_nil, List.append_nil,
      List.nil_append]
  | cons c rest ih =>
    obtain ⟨f, rfl⟩ : ∃ f, fuel = f + 1 := ⟨fuel - 1, by omega⟩
    rw [List.cons_append, pyReplaceAux]
    have hc : c ≠ '+' := fun h => hb (h ▸ List.mem_cons_self c rest)
    have hnp : ¬(('+' :: p) ≠ [] ∧
        isPre ('+' :: p) (c :: (rest ++ '+' :: p)) = true) := by
      rintro ⟨-, hpre⟩
      exact hc (isPre_plus_head hpre)
    rw [if_neg hnp, List.cons_append]
    refine congrArg (c :: ·) (ih f (fun h => hb (List.mem_cons_of_mem c h)) ?_)
    simp only [List.length_cons] at hf
    omega

/-- Replacing the pattern appended after a pattern-free body substitutes
exactly that one trailing occurrence. -/
theorem pyReplace_append {p rep body : List Char}
    (hb : '+' ∉ body) :
    pyReplace ('+' :: p) rep (body ++ '+' :: p) = body ++ rep := by
  refine pyReplaceAux_append body _ hb ?_
  simp only [List.length_append, List.length_cons]
  omega

theorem substr_plus_eq_false {p s : List Char} (hs : '+' ∉ s) :
    substr ('+' :: p) s = false := by
  induction s with
  | nil => rfl
  | cons c rest ih =>
    rw [substr]
    have hc : c ≠ '+' := fun h => hs (h ▸ List.mem_cons_self c rest)
    have h1 : isPre ('+' :: p) (c :: rest) = false := by
      cases hpre : isPre ('+' :: p) (c :: rest)
      · rfl
      · exact absurd (isPre_plus_head hpre) hc
    rw [h1, ih (fun h => hs (List.mem_cons_of_mem c h)), Bool.or_self]

/-! ### Python `datetime` objects and their `str` rendering

The scripts only ever handle timezone-aware datetimes (`ODIMReader.root_datetime`
attaches `pytz.utc`), so the model carries the UTC offset explicitly. -/

structure PyDatetime where
  year : Nat
  month : Nat
  day : Nat
  hour : Nat
  minute : Nat
  second : Nat
  microsecond : Nat
  /-- UTC offset of the attached timezone, in minutes. -/
  offsetMinutes : Int
  deriving DecidableEq

/-- The `±HH:MM` offset suffix `str(d)` appends to an aware datetime. -/
def pyStrOffset (off : Int) : List Char :=
  (if off < 0 then '-' else '+') ::
    (padNat 2 (off.natAbs / 60) ++ ':' :: padNat 2 (off.natAbs % 60))

/-- The date-time body of `str(d)`: `YYYY-MM-DD HH:MM:SS` (Python renders the
separator between date and time as a space; `isoformat` would use `T`). -/
def datetimeBody (d : PyDatetime) : List Char :=
  padNat 4 d.year ++ '-' :: padNat 2 d.month ++ '-' :: padNat 2 d.day
    ++ ' ' :: padNat 2 d.hour ++ ':' :: padNat 2 d.minute ++ ':' :: padNat 2 d.second

/-- Python `str(d)` for an aware datetime: body, optional `.ffffff`
microsecond part (omitted when zero), then the UTC-offset suffix. -/
def pyStrDatetime (d : PyDatetime) : List Char :=
  datetimeBody d
    ++ (if d.microsecond = 0 then [] else '.' :: padNat 6 d.microsecond)
    ++ pyStrOffset d.offsetMinutes

/-- `datetime_to_proper8601` from `scripts/vph5_to_vpts.py`:
`str(d).replace("+00:00", "Z")`. -/
def datetime_to_proper8601 (d : PyDatetime) : List Char :=
  pyReplace ('+' :: "00:00".data) "Z".data (pyStrDatetime d)

theorem plus_not_mem_datetimeBody (d : PyDatetime) : '+' ∉ datetimeBody d := by
  intro hmem
  simp only [datetimeBody, List.mem_append, List.mem_cons] at hmem
  rcases hmem with ((((h | h | h) | h | h) | h | h) | h | h) | h | h <;>
    first
      | exact plus_not_mem_padNat _ _ h
      | exact absurd h (by decide)

theorem pyStrOffset_zero : pyStrOffset 0 = '+' :: "00:00".data := by decide

theorem pyStrDatetime_utc (d : PyDatetime)
    (hoff : d.offsetMinutes = 0) (hmicro : d.microsecond = 0) :
    pyStrDatetime d = datetimeBody d ++ '+' :: "00:00".data := by
  unfold pyStrDatetime
  rw [hoff, hmicro, pyStrOffset_zero, if_pos rfl, List.append_nil]

/-- Core behaviour of `datetime_to_proper8601` on the datetimes the scripts
feed it (UTC, zero microseconds): the result is the date-time body with a
literal trailing `Z`, and the `+00:00` form does not occur in it. -/
theorem datetime_to_proper8601_utc (d : PyDatetime)
    (hoff : d.offsetMinutes = 0) (hmicro : d.microsecond = 0) :
    datetime_to_proper8601 d = datetimeBody d ++ "Z".data ∧
      substr "+00:00".data (datetime_to_proper8601 d) = false := by
  have h1 : datetime_to_proper8601 d = datetimeBody d ++ "Z".data := by
    unfold datetime_to_proper8601
    rw [pyStrDatetime_utc d hoff hmicro]
    exact pyReplace_append (plus_not_mem_datetimeBody d)
  refine ⟨h1, ?_⟩
  rw [h1]
  show substr ('+' :: "00:00".data) _ = false
  apply substr_plus_eq_false
  intro hmem
  rcases List.mem_append.mp hmem with h | h
  · exact plus_not_mem_datetimeBody d h
  · exact absurd h (by decide)

/-! ### ODIM dataset groups and `get_values`

An ODIM `dataset1` group is modelled as the ordered list of its data
sub-groups (the order `for data_group in dataset` iterates them in); each
sub-group carries its `what.quantity`, `what.nodata`, `what.undetect`
attributes and the first column of its 2-d `data` array (the code reads
`entry[0]` for each row).  HDF5 float scalars are modelled as rationals. -/

/-- A decoded cell of a profile: a raw numeric value, one of the literal
Python marker strings (`"nodata"` / `"undetect"`), or a converted boolean. -/
inductive CellValue where
  | num (v : ℚ)
  | str (s : String)
  | bool (b : Bool)
  deriving DecidableEq

structure DataGroup where
  quantity : String
  nodata : ℚ
  undetect : ℚ
  data : List ℚ
  deriving DecidableEq

/-- The body of `get_values` once the matching sub-group is found:
nodata substitution over the whole array, then undetect substitution,
then (when requested) boolean conversion of every element.  Note that in
Python `"nodata" == undetect_val` is `False` (a `str` never equals a float)
and `"nodata" == 1` / `"undetect" == 1` are `False`, which the `match`
arms reproduce. -/
def decodeValues (g : DataGroup) (convert_to_bool : Bool) : List CellValue :=
  let vs1 := g.data.map (fun v =>
    if v = g.nodata then CellValue.str "nodata" else CellValue.num v)
  let vs2 := vs1.map (fun c =>
    match c with
    | CellValue.num v =>
        if v = g.undetect then CellValue.str "undetect" else CellValue.num v
    | c => c)
  if convert_to_bool then
    vs2.map (fun c =>
      match c with
      | CellValue.num v => CellValue.bool (v == 1)
      | _ => CellValue.bool false)
  else vs2

/-- `get_values` from `scripts/vph5_to_vpts.py`: scan the dataset's
sub-groups for the first one whose `quantity` attribute matches, and decode
its array; Python falls off the loop and returns `None` when no sub-group
matches. -/
def get_values (dataset : List DataGroup) (quantity : String)
    (convert_to_bool : Bool) : Option (List CellValue) :=
  match dataset.find? (fun g => g.quantity == quantity) with
  | some g => some (decodeValues g convert_to_bool)
  | none => none

/-- The per-cell conversion done by `table_to_frictionless_csv` just before
writing: Python `True`/`False` become the lowercase strings, everything else
is passed to the CSV writer unchanged. -/
def frictionlessCell : CellValue → CellValue
  | CellValue.bool true => CellValue.str "true"
  | CellValue.bool false => CellValue.str "false"
  | c => c

/-! ### `Level`, `Profile`, `make_from_odim`, `to_table` -/

inductive PyError where
  | typeError
  | indexError
  | valueError
  deriving DecidableEq

instance {ε α : Type} [DecidableEq ε] [DecidableEq α] :
    DecidableEq (Except ε α) := fun x y =>
  match x, y with
  | Except.ok a, Except.ok b =>
    if h : a = b then isTrue (by rw [h])
    else isFalse (fun hc => h (by injection hc))
  | Except.error e, Except.error f =>
    if h : e = f then isTrue (by rw [h])
    else isFalse (fun hc => h (by injection hc))
  | Except.ok _, Except.error _ => isFalse (fun hc => by injection hc)
  | Except.error _, Except.ok _ => isFalse (fun hc => by injection hc)

/-- `Level` dataclass: a height (as decoded by `get_values`, so possibly a
marker string) and the per-variable decoded values in the fixed insertion
order of the Python dict. -/
structure Level where
  height : CellValue
  /-- the Python field is named `variables` (a reserved word in Lean). -/
  vars : List (String × CellValue)
  deriving DecidableEq

/-- `Profile` dataclass. -/
structure Profile where
  radar_identifiers : List (String × String)
  datetime : PyDatetime
  levels : List Level
  deriving DecidableEq

/-- The fixed `variables_to_load` tuple of `make_from_odim`
(`name`, `convert_to_bool`). -/
def variables_to_load : List (String × Bool) :=
  [("dens", false), ("ff", false), ("dd", false), ("eta", false),
   ("sd_vvp", false), ("DBZH", false), ("dbz", false), ("u", false),
   ("v", false), ("gap", true), ("w", false), ("n_dbz", false),
   ("n", false), ("n_all", false), ("n_dbz_all", false)]

/-- Numeric view of a cell (only meaningful for `.num` cells; the junk value
for markers is never relied upon, the callers guard on `cellIsNum`). -/
def cellQ : CellValue → ℚ
  | CellValue.num v => v
  | _ => 0

def cellIsNum : CellValue → Bool
  | CellValue.num _ => true
  | _ => false

def cellIsStr : CellValue → Bool
  | CellValue.str _ => true
  | _ => false

def cellS : CellValue → String
  | CellValue.str s => s
  | _ => ""

/-- Lexicographic `<` on character lists: Python's `str.__lt__`. -/
def strLtB : List Char → List Char → Bool
  | [], [] => false
  | [], _ :: _ => true
  | _ :: _, [] => false
  | a :: as, b :: bs => a < b || (a == b && strLtB as bs)

/-- Height comparison used by `Level.__lt__` when the heights are floats. -/
def levelNumLe (a b : Level) : Prop := cellQ a.height ≤ cellQ b.height

instance : DecidableRel levelNumLe := fun a b =>
  inferInstanceAs (Decidable (cellQ a.height ≤ cellQ b.height))

instance : IsTotal Level levelNumLe := ⟨fun a b => le_total _ _⟩

instance : IsTrans Level levelNumLe := ⟨fun _ _ _ hab hbc => le_trans hab hbc⟩

/-- Height comparison `Level.__lt__` falls back to when both heights decoded
to marker strings (Python then compares the two `str`s). -/
def levelStrLe (a b : Level) : Prop :=
  strLtB (cellS b.height).data (cellS a.height).data = false

instance : DecidableRel levelStrLe := fun a b =>
  inferInstanceAs (Decidable (_ = false))

/-- `sorted(levels)` in `make_from_odim`.  Python's sort compares heights
with `<`: it succeeds when the heights are mutually comparable (all floats,
or all marker strings) and raises `TypeError` on a float/str mix (any such
mix of two or more levels gets compared during the sort). -/
def sortLevels (ls : List Level) : Except PyError (List Level) :=
  if ls.all (fun l => cellIsNum l.height) then
    Except.ok (ls.insertionSort levelNumLe)
  else if ls.all (fun l => cellIsStr l.height) then
    Except.ok (ls.insertionSort levelStrLe)
  else Except.error PyError.typeError

/-- The dict-comprehension of one `Level`'s variables: for each entry of
`variables_to_load`, `get_values(dataset1, quantity=name, ...)` subscripted
at index `i`.  When the quantity is absent `get_values` returns `None` and
`None[i]` raises `TypeError`; a found but too-short array raises
`IndexError`. -/
def lookupVars (ds : List DataGroup) (i : Nat) :
    List (String × Bool) → Except PyError (List (String × CellValue))
  | [] => Except.ok []
  | (name, cb) :: rest =>
    match get_values ds name cb with
    | none => Except.error PyError.typeError
    | some vs =>
      match vs.get? i with
      | none => Except.error PyError.indexError
      | some x =>
        match lookupVars ds i rest with
        | Except.ok tail => Except.ok ((name, x) :: tail)
        | Except.error e => Except.error e

/-- The `for i, height in enumerate(height_values)` loop building the
unsorted level list. -/
def buildLevels (ds : List DataGroup) : Nat → List CellValue → Except PyError (List Level)
  | _, [] => Except.ok []
  | i, h :: hs =>
    match lookupVars ds i variables_to_load with
    | Except.error e => Except.error e
    | Except.ok vars =>
      match buildLevels ds (i + 1) hs with
      | Except.error e => Except.error e
      | Except.ok tail => Except.ok (⟨h, vars⟩ :: tail)

/-- `Profile.make_from_odim`: read the `HGHT` array of `dataset1`
(`enumerate(None)` raises `TypeError` when `HGHT` is absent), build one
`Level` per height, and return the profile with its levels sorted. -/
def make_from_odim (ds : List DataGroup) (dt : PyDatetime)
    (radar : List (String × String)) : Except PyError Profile :=
  match get_values ds "HGHT" false with
  | none => Except.error PyError.typeError
  | some heights =>
    match buildLevels ds 0 heights with
    | Except.error e => Except.error e
    | Except.ok levels =>
      match sortLevels levels with
      | Except.error e => Except.error e
      | Except.ok sortedLevels => Except.ok ⟨radar, dt, sortedLevels⟩

/-- One row of `to_table(prepare_for_csv=True)`: the dict
`{"datetime": ..., "height": ..., **level.variables}` after the CSV
preparation pass (`datetime_to_proper8601` on the datetime, `int()` on the
height). -/
structure CsvRow where
  datetime : List Char
  height : Int
  /-- the Python dict entries coming from `level.variables`. -/
  vars : List (String × CellValue)
  deriving DecidableEq

/-- Python `int()` on a float: truncation toward zero. -/
def pyTrunc (q : ℚ) : Int := Int.tdiv q.num (q.den : Int)

def rowOfLevel (dt : PyDatetime) (l : Level) : Except PyError CsvRow :=
  match l.height with
  | CellValue.num q => Except.ok ⟨datetime_to_proper8601 dt, pyTrunc q, l.vars⟩
  | _ => Except.error PyError.valueError

def rowsOfLevels (dt : PyDatetime) : List Level → Except PyError (List CsvRow)
  | [] => Except.ok []
  | l :: ls =>
    match rowOfLevel dt l with
    | Except.error e => Except.error e
    | Except.ok r =>
      match rowsOfLevels dt ls with
      | Except.error e => Except.error e
      | Except.ok rs => Except.ok (r :: rs)

/-- `Profile.to_table(prepare_for_csv=True)`: one row per level, in level
order; `int("nodata")` on a marker height raises `ValueError`. -/
def to_table (p : Profile) : Except PyError (List CsvRow) :=
  rowsOfLevels p.datetime p.levels

/-! ### Sorting profiles by datetime (`Profile.__lt__`, `sorted(profiles)`)

Python compares timezone-aware datetimes by instant; all datetimes the
scripts build carry the same (UTC) offset, for which the comparison is the
lexicographic comparison of the calendar fields modelled here. -/

def pyDtLt (a b : PyDatetime) : Bool :=
  decide (a.year < b.year) || (a.year == b.year &&
    (decide (a.month < b.month) || (a.month == b.month &&
    (decide (a.day < b.day) || (a.day == b.day &&
    (decide (a.hour < b.hour) || (a.hour == b.hour &&
    (decide (a.minute < b.minute) || (a.minute == b.minute &&
    (decide (a.second < b.second) || (a.second == b.second &&
    decide (a.microsecond < b.microsecond))))))))))))

def pyDtLe (a b : PyDatetime) : Bool := !(pyDtLt b a)

/-- The calendar fields a (fixed-offset) datetime comparison looks at. -/
def dtFields (d : PyDatetime) : List Nat :=
  [d.year, d.month, d.day, d.hour, d.minute, d.second, d.microsecond]

theorem pyDtLe_total (a b : PyDatetime) :
    pyDtLe a b = true ∨ pyDtLe b a = true := by
  simp only [pyDtLe, pyDtLt, Bool.not_eq_true', Bool.or_eq_false_iff,
    Bool.and_eq_false_iff, decide_eq_false_iff_not, beq_eq_false_iff_ne, ne_eq,
    not_lt]
  omega

theorem pyDtLe_trans {a b c : PyDatetime} (hab : pyDtLe a b = true)
    (hbc : pyDtLe b c = true) : pyDtLe a c = true := by
  simp only [pyDtLe, pyDtLt, Bool.not_eq_true', Bool.or_eq_false_iff,
    Bool.and_eq_false_iff, decide_eq_false_iff_not, beq_eq_false_iff_ne, ne_eq,
    not_lt] at hab hbc ⊢
  omega

/-- `pyDtLe` together with distinct calendar fields gives a strict
comparison. -/
theorem pyDtLt_of_le_of_ne {a b : PyDatetime} (hle : pyDtLe a b = true)
    (hne : dtFields a ≠ dtFields b) : pyDtLt a b = true := by
  simp only [dtFields, ne_eq, List.cons.injEq, and_true, not_and] at hne
  simp only [pyDtLe, Bool.not_eq_true'] at hle
  simp only [pyDtLt, Bool.or_eq_false_iff, Bool.and_eq_false_iff,
    decide_eq_false_iff_not, beq_eq_false_iff_ne, ne_eq, not_lt] at hle
  simp only [pyDtLt, Bool.or_eq_true, Bool.and_eq_true, decide_eq_true_eq,
    beq_iff_eq]
  by_contra hcon
  simp only [Bool.or_eq_true, Bool.and_eq_true, decide_eq_true_eq, beq_iff_eq,
    not_or, not_and, not_lt] at hcon
  omega

/-- `Profile.__lt__`-induced total preorder used by `sorted(profiles)`. -/
def profLe (a b : Profile) : Prop := pyDtLe a.datetime b.datetime = true

instance : DecidableRel profLe := fun a b =>
  inferInstanceAs (Decidable (_ = true))

instance : IsTotal Profile profLe := ⟨fun a b => pyDtLe_total a.datetime b.datetime⟩

instance : IsTrans Profile profLe := ⟨fun _ _ _ hab hbc => pyDtLe_trans hab hbc⟩

/-- `sorted([Profile.make_from_odim(odim) for odim in odims])` in `cli`
(Python's sort is stable, so any stable sort with the same comparison
produces the same list; insertion sort is one). -/
def sortProfiles (ps : List Profile) : List Profile := ps.insertionSort profLe

/-- The `(timestamp, height)` projection of the aggregated full data table:
the cli appends one row per level of each profile, profiles in sorted
order. -/
def tablePairs (ps : List Profile) : List (PyDatetime × ℚ) :=
  (sortProfiles ps).flatMap (fun p => p.levels.map (fun l => (p.datetime, cellQ l.height)))

/-- Non-decreasing order on `(timestamp, height)` row pairs. -/
def pairLe (x y : PyDatetime × ℚ) : Prop :=
  pyDtLt x.1 y.1 = true ∨ (x.1 = y.1 ∧ x.2 ≤ y.2)

/-! ### The cli of `scripts/vph5_to_vpts.py` from the profile stage on -/

/-- Python dict equality on string-keyed dicts represented as association
lists (key order irrelevant, keys unique in a real dict). -/
def pyDictEq (a b : List (String × String)) : Bool :=
  a.all (fun kv => b.lookup kv.1 == some kv.2)
    && b.all (fun kv => a.lookup kv.1 == some kv.2)

def EXIT_INCONSISTENT_METADATA : Nat := 3

def inconsistentMsg : String :=
  "Inconsistent radar identifiers in the source odim files!"

/-- Parameter names of `save_to_vpts(full_data_table, folder_path_output,
source_metadata)`. -/
def save_to_vpts_params : List String :=
  ["full_data_table", "folder_path_output", "source_metadata"]

/-- Parameter names of `table_to_frictionless_csv(full_data_table,
file_path_output_csv)`. -/
def table_to_frictionless_csv_params : List String :=
  ["full_data_table", "file_path_output_csv"]

/-- Keyword names used at the `save_to_vpts(...)` call site in `cli`
(line 285: `output_dir=output_dir_path, source_metadata=global_metadata`). -/
def cli_save_call_kwargs : List String := ["output_dir", "source_metadata"]

/-- Keyword names used at the `table_to_frictionless_csv(...)` call site in
`save_to_vpts` (line 222: `output_csv_path=...`). -/
def save_to_vpts_call_kwargs : List String := ["output_csv_path"]

/-- Python call binding: a call raises `TypeError` (before the callee body
runs) iff some keyword argument is not among the callee's parameters. -/
def kwargsOk (params kwargs : List String) : Bool :=
  kwargs.all (fun k => params.contains k)

/-- The save step of `cli`: `save_to_vpts(full_data_table,
output_dir=output_dir_path, source_metadata=global_metadata)`.  Returns the
list of files written (CSV then descriptor) or the `TypeError` raised by
keyword binding.  The data table and directory are parameters so the result
is quantified over every input. -/
def cliSaveStep (_table : List CsvRow) (outputDir : String) :
    Except PyError (List String) :=
  if kwargsOk save_to_vpts_params cli_save_call_kwargs then
    -- body of save_to_vpts: mkdir, then the table_to_frictionless_csv call
    if kwargsOk table_to_frictionless_csv_params save_to_vpts_call_kwargs then
      Except.ok [outputDir ++ "/vpts.csv", outputDir ++ "/datapackage.json"]
    else Except.error PyError.typeError
  else Except.error PyError.typeError

/-- The `for profile in profiles: table = profile.to_table(); ...` loop. -/
def tablesOfProfiles : List Profile → Except PyError (List CsvRow)
  | [] => Except.ok []
  | p :: ps =>
    match to_table p with
    | Except.error e => Except.error e
    | Except.ok t =>
      match tablesOfProfiles ps with
      | Except.error e => Except.error e
      | Except.ok ts => Except.ok (t ++ ts)

inductive CliStop where
  /-- `sys.exit(code)` after `click.echo(msg)`. -/
  | sysExit (code : Nat) (msg : String)
  /-- an uncaught Python exception. -/
  | pyRaise (e : PyError)
  /-- normal completion. -/
  | finished
  deriving DecidableEq

def defaultProfile : Profile := ⟨[], ⟨0, 0, 0, 0, 0, 0, 0, 0⟩, []⟩

/-- `cli` of `scripts/vph5_to_vpts.py` from the point where the profiles
have been built (the empty-input and invalid-ODIM exits happen before):
sort, radar-identifier consistency check against `profiles[0]`, aggregation
loop, save step.  Returns how the run stops together with the output files
written (the consistency exit and any raise happen before any write). -/
def cliFromProfiles (ps0 : List Profile) (outputDir : String) :
    CliStop × List String :=
  if (sortProfiles ps0).all (fun p =>
      pyDictEq p.radar_identifiers
        ((sortProfiles ps0).head?.getD defaultProfile).radar_identifiers) then
    match tablesOfProfiles (sortProfiles ps0) with
    | Except.error e => (CliStop.pyRaise e, [])
    | Except.ok table =>
      match cliSaveStep table outputDir with
      | Except.error e => (CliStop.pyRaise e, [])
      | Except.ok files => (CliStop.finished, files)
  else (CliStop.sysExit EXIT_INCONSISTENT_METADATA inconsistentMsg, [])

/-! ### `check_source_odim` -/

/-- `check_source_odim`, abstracted over the container's top-level group
names and its `what.object` attribute string. -/
def check_source_odim (keys : List String) (objectStr : String) :
    Except String Unit :=
  if !(["what", "how", "where"].all (fun g => keys.contains g)) then
    Except.error
      "No hdf5 ODIM format: File does not contain what/how/where group information."
  else if objectStr ≠ "VP" then
    Except.error ("Incorrect what.object value: expected VP, found " ++ objectStr)
  else Except.ok ()

/-! ### The daily-conversion loop of `bin/vph5_to_vpts.py` (lines 151-191)

The body of the per-target `try:` block is a fixed sequence of statements;
an exception raised by any of them jumps to the `except Exception` handler,
which only logs a warning, and the loop moves to the next target. -/

inductive DailyStep where
  /-- `inbo_s3.ls(...)` enlisting the day's HDF5 files. -/
  | enlistFiles
  /-- `temp_folder_path = Path(tempfile.mkdtemp())`. -/
  | makeTempDir
  /-- the `s3_client.download_file(...)` loop. -/
  | downloadFiles
  /-- `df_vpts = vpts(h5_file_local_paths)`. -/
  | runVpts
  /-- `vpts_to_csv(df_vpts, ...)`. -/
  | saveCsvLocal
  /-- `inbo_s3.put(...)`. -/
  | uploadToS3
  /-- `shutil.rmtree(temp_folder_path)`. -/
  | removeTempDir
  deriving DecidableEq

/-- The statements of the `try:` block, in source order. -/
def dailySteps : List DailyStep :=
  [DailyStep.enlistFiles, DailyStep.makeTempDir, DailyStep.downloadFiles,
   DailyStep.runVpts, DailyStep.saveCsvLocal, DailyStep.uploadToS3,
   DailyStep.removeTempDir]

/-- The statements one iteration actually executes when the statement at
index `k` raises (`failAt = some k`); with `failAt = none` all run. -/
def executedSteps (failAt : Option Nat) : List DailyStep :=
  match failAt with
  | none => dailySteps
  | some k => dailySteps.take k

def tempDirCreated (failAt : Option Nat) : Bool :=
  (executedSteps failAt).contains DailyStep.makeTempDir

def tempDirRemoved (failAt : Option Nat) : Bool :=
  (executedSteps failAt).contains DailyStep.removeTempDir

/-! ### Lexicographic order on storage keys (`sorted` on Python strings) -/

theorem strLtB_asymm : ∀ {a b : List Char},
    strLtB a b = true → strLtB b a = false
  | [], [], h => by simp [strLtB] at h
  | [], _ :: _, _ => by simp [strLtB]
  | _ :: _, [], h => by simp [strLtB] at h
  | a :: as, b :: bs, h => by
    simp only [strLtB, Bool.or_eq_true, Bool.and_eq_true, beq_iff_eq,
      decide_eq_true_eq] at h ⊢
    rcases h with h | ⟨rfl, h⟩
    · simp only [Bool.or_eq_false_iff, Bool.and_eq_false_iff,
        decide_eq_false_iff_not, not_lt, beq_eq_false_iff_ne, ne_eq]
      exact ⟨le_of_lt h, Or.inl (ne_of_gt h)⟩
    · simp only [Bool.or_eq_false_iff, Bool.and_eq_false_iff,
        decide_eq_false_iff_not, not_lt, beq_eq_false_iff_ne, ne_eq]
      exact ⟨le_refl a, Or.inr (strLtB_asymm h)⟩

theorem strLtB_eq_of_not_lt : ∀ {a b : List Char},
    strLtB a b = false → strLtB b a = false → a = b
  | [], [], _, _ => rfl
  | [], _ :: _, h, _ => by simp [strLtB] at h
  | _ :: _, [], _, h => by simp [strLtB] at h
  | a :: as, b :: bs, h₁, h₂ => by
    simp only [strLtB, Bool.or_eq_false_iff, Bool.and_eq_false_iff,
      decide_eq_false_iff_not, not_lt, beq_eq_false_iff_ne, ne_eq] at h₁ h₂
    have hab : a = b := le_antisymm h₂.1 h₁.1
    subst hab
    rcases h₁.2 with h | h
    · exact absurd rfl h
    · rcases h₂.2 with h' | h'
      · exact absurd rfl h'
      · exact congrArg (a :: ·) (strLtB_eq_of_not_lt h h')

theorem strLtB_trans : ∀ {a b c : List Char},
    strLtB a b = true → strLtB b c = true → strLtB a c = true
  | [], _ :: _, _ :: _, _, _ => by simp [strLtB]
  | [], b, [], h₁, h₂ => by
    cases b with
    | nil => simp [strLtB] at h₁
    | cons x xs => simp [strLtB] at h₂
  | [], [], _, h, _ => by simp [strLtB] at h
  | _ :: _, [], _, h, _ => by simp [strLtB] at h
  | _ :: _, _ :: _, [], _, h => by simp [strLtB] at h
  | a :: as, b :: bs, c :: cs, h₁, h₂ => by
    simp only [strLtB, Bool.or_eq_true, Bool.and_eq_true, beq_iff_eq,
      decide_eq_true_eq] at h₁ h₂ ⊢
    rcases h₁ with h₁ | ⟨rfl, h₁⟩
    · rcases h₂ with h₂ | ⟨rfl, h₂⟩
      · exact Or.inl (lt_trans h₁ h₂)
      · exact Or.inl h₁
    · rcases h₂ with h₂ | ⟨rfl, h₂⟩
      · exact Or.inl h₂
      · exact Or.inr ⟨rfl, strLtB_trans h₁ h₂⟩

/-- `sorted` on Python string keys: the induced non-strict order. -/
def keyLe (a b : List Char) : Prop := strLtB b a = false

instance : DecidableRel keyLe := fun a b =>
  inferInstanceAs (Decidable (_ = false))

instance : IsTotal (List Char) keyLe :=
  ⟨fun a b => by
    by_cases h : strLtB a b = true
    · exact Or.inl (strLtB_asymm h)
    · exact Or.inr (by simpa [keyLe] using h)⟩

instance : IsTrans (List Char) keyLe :=
  ⟨fun a b c hab hbc => by
    unfold keyLe at hab hbc ⊢
    by_contra hca
    rw [Bool.not_eq_false] at hca
    rcases hlt : strLtB b c with hf | ht
    · have hbc' := strLtB_eq_of_not_lt hbc hlt
      subst hbc'
      rw [hca] at hab
      exact absurd hab (by simp)
    · have := strLtB_trans hlt hca
      rw [this] at hab
      exact absurd hab (by simp)⟩

/-! ### The monthly-aggregation loop of `bin/vph5_to_vpts.py` (lines 205-236)

`OdimFilePath` and its path helpers live in `vptstools/s3.py`, which is not
among the sources here, so the daily-CSV key layout is modelled from the
spec (see `dailyCsvKey`); the filtering, sorting and concatenation logic is
from the source. -/

/-- Modelled from the spec: the daily-CSV object key for one radar-day.
Missing code: `OdimFilePath.s3_path_setup`/`daily_vpts_file_name`
(`vptstools/s3.py`).  Per spec §4.3 a storage key embeds `source`, the
radar code and a fixed-width date; the date digits `yyyymmdd` are contiguous
in the file name ("fixed-width date encoding", §4.5). -/
def dailyCsvKey (source radar yyyy mm dd : String) : List Char :=
  source.data ++ "/daily/".data ++ radar.data ++ "/".data ++ source.data
    ++ "_".data ++ radar.data ++ "_vp_".data
    ++ yyyy.data ++ mm.data ++ dd.data ++ ".csv".data

/-- The filter of the monthly loop:
`daily_vpts.find(f"{odim_path.year}{odim_path.month}") >= 0`, i.e. keep the
keys that contain the concatenated year+month digits as a substring. -/
def monthlyFilter (yyyy mm : String) (file_list : List (List Char)) :
    List (List Char) :=
  file_list.filter (fun k => substr (yyyy.data ++ mm.data) k)

/-- `files_to_concat = sorted([...])`. -/
def monthlyFilesToConcat (yyyy mm : String) (file_list : List (List Char)) :
    List (List Char) :=
  (monthlyFilter yyyy mm file_list).insertionSort keyLe

/-- Contents of one daily CSV object as read back by
`pd.read_csv(dtype=str, keep_default_na=False, na_values=None)`:
the header row and the data rows, all cells as opaque strings. -/
structure CsvFile where
  header : List String
  rows : List (List String)
  deriving DecidableEq

/-- The monthly build: read every kept daily CSV, `pd.concat` them, write
with a single header (`to_csv(index=False)`).  `pd.concat` of an empty
sequence raises; on column mismatch pandas would align by column name and
pad, which the daily files (all sharing the fixed VPTS header) never
trigger — the model reports it as an error and the theorems only engage the
shared-header case. -/
def monthlyBuild (content : List Char → CsvFile) (yyyy mm : String)
    (file_list : List (List Char)) : Except PyError CsvFile :=
  match monthlyFilesToConcat yyyy mm file_list with
  | [] => Except.error PyError.valueError
  | k :: ks =>
    if (k :: ks).all (fun f => (content f).header = (content k).header) then
      Except.ok ⟨(content k).header,
        (k :: ks).flatMap (fun f => (content f).rows)⟩
    else Except.error PyError.valueError

/-! ### Further substring lemmas -/

theorem isPre_append (l t : List Char) : isPre l (l ++ t) = true := by
  induction l with
  | nil => rfl
  | cons a as ih => simp [isPre, ih]

theorem substr_append_self (pat t : List Char) : substr pat (pat ++ t) = true := by
  cases pat with
  | nil =>
    cases t with
    | nil => rfl
    | cons c r => simp [substr, isPre]
  | cons a as =>
    rw [List.cons_append, substr]
    simp [isPre, isPre_append]

/-- A pattern occurring as a contiguous infix is found by the substring
test. -/
theorem substr_embedded (pre pat post : List Char) :
    substr pat (pre ++ pat ++ post) = true := by
  induction pre with
  | nil => rw [List.nil_append]; exact substr_append_self _ _
  | cons c pre ih =>
    rw [List.cons_append, List.cons_append, substr, ← List.cons_append, ih]
    simp

/-! ## Claim theorems -/

/-- **C8** — For every container, extraction fails with the
`InvalidSourceODIM` error iff the container lacks one of the three required
top-level groups (`what`, `how`, `where`) or its declared object type is not
`"VP"`; in the wrong-object-type case (with the groups present, which is
checked first) the error message includes the value actually found. -/
theorem check_source_odim_spec (keys : List String) (objectStr : String) :
    ((∃ e, check_source_odim keys objectStr = Except.error e) ↔
      (¬ (∀ g ∈ ["what", "how", "where"], g ∈ keys) ∨ objectStr ≠ "VP"))
    ∧ ((∀ g ∈ ["what", "how", "where"], g ∈ keys) → objectStr ≠ "VP" →
        check_source_odim keys objectStr =
          Except.error ("Incorrect what.object value: expected VP, found " ++ objectStr)
        ∧ substr objectStr.data
            ("Incorrect what.object value: expected VP, found " ++ objectStr).data
            = true) := by
  have hbridge : (["what", "how", "where"].all (fun g => keys.contains g)) = true
      ↔ (∀ g ∈ ["what", "how", "where"], g ∈ keys) := by
    simp [List.all_eq_true]
  constructor
  · constructor
    · rintro ⟨e, he⟩
      unfold check_source_odim at he
      by_cases h1 : (["what", "how", "where"].all (fun g => keys.contains g)) = true
      · rw [h1] at he
        simp only [Bool.not_true, if_false] at he
        by_cases h2 : objectStr ≠ "VP"
        · exact Or.inr h2
        · rw [if_neg h2] at he
          exact absurd he (by simp)
      · exact Or.inl (fun hall => h1 (hbridge.mpr hall))
    · intro h
      unfold check_source_odim
      by_cases h1 : (["what", "how", "where"].all (fun g => keys.contains g)) = true
      · rw [h1]
        simp only [Bool.not_true, if_false]
        rcases h with h | h
        · exact absurd (hbridge.mp h1) h
        · rw [if_pos h]
          exact ⟨_, rfl⟩
      · rw [Bool.not_eq_true] at h1
        rw [h1]
        simp only [Bool.not_false, if_true]
        exact ⟨_, rfl⟩
  · intro hall hne
    have h1 : (["what", "how", "where"].all (fun g => keys.contains g)) = true :=
      hbridge.mpr hall
    constructor
    · unfold check_source_odim
      rw [h1]
      simp only [Bool.not_true]
      rw [if_neg (by decide : ¬((false : Bool) = true)), if_pos hne]
    · rw [String.data_append]
      have := substr_embedded
        "Incorrect what.object value: expected VP, found ".data objectStr.data []
      rwa [List.append_nil] at this

/-- Witness for C8: a container with all three groups but object type
`PVOL` (the sample file of the test suite) fails with a message naming
`PVOL`. -/
theorem check_source_odim_spec_witness :
    (∀ g ∈ ["what", "how", "where"], g ∈ ["what", "how", "where", "dataset1"])
    ∧ ("PVOL" ≠ "VP")
    ∧ (check_source_odim ["what", "how", "where", "dataset1"] "PVOL" =
        Except.error ("Incorrect what.object value: expected VP, found " ++ "PVOL")
      ∧ substr "PVOL".data
          ("Incorrect what.object value: expected VP, found " ++ "PVOL").data
          = true) :=
  ⟨by decide, by decide,
    (check_source_odim_spec ["what", "how", "where", "dataset1"] "PVOL").2
      (by decide) (by decide)⟩

/-- **C9** — The save step of the scripts entry point always raises
`TypeError` at keyword binding (`output_dir` is not a parameter of
`save_to_vpts`, and even inside `save_to_vpts` the keyword
`output_csv_path` is not a parameter of `table_to_frictionless_csv`), for
every data table and output path; consequently `cli` never records any
written output file. -/
theorem cli_save_step_always_typeError (table : List CsvRow) (outputDir : String)
    (ps : List Profile) :
    cliSaveStep table outputDir = Except.error PyError.typeError
    ∧ kwargsOk save_to_vpts_params cli_save_call_kwargs = false
    ∧ kwargsOk table_to_frictionless_csv_params save_to_vpts_call_kwargs = false
    ∧ (cliFromProfiles ps outputDir).2 = [] := by
  have hkw : kwargsOk save_to_vpts_params cli_save_call_kwargs = false := by decide
  have hsave : ∀ (t : List CsvRow),
      cliSaveStep t outputDir = Except.error PyError.typeError := by
    intro t
    unfold cliSaveStep
    rw [hkw]
    rfl
  refine ⟨hsave table, hkw, by decide, ?_⟩
  unfold cliFromProfiles
  by_cases hall : ((sortProfiles ps).all fun p =>
      pyDictEq p.radar_identifiers
        ((sortProfiles ps).head?.getD defaultProfile).radar_identifiers) = true
  · simp only [hall, if_true]
    cases htab : tablesOfProfiles (sortProfiles ps) with
    | error e => rfl
    | ok t =>
      dsimp only
      rw [hsave t]
  · rw [Bool.not_eq_true] at hall
    simp only [hall]
    rfl

/-- **C3** — Evaluation of the daily-loop model at the failing input: when
the statement at index 3 (`vpts(...)`, any statement after `mkdtemp` and
before `rmtree` behaves alike) raises, the temp directory has been created
but `shutil.rmtree` is never executed — the `except` handler only logs —
while on the success path it is removed.  This contradicts the claimed
cleanup on every exit path. -/
theorem daily_loop_tempdir_leak :
    tempDirCreated (some 3) = true ∧ tempDirRemoved (some 3) = false
    ∧ tempDirRemoved none = true := by decide

/-! ### `get_values` characterizations (C1, C10) -/

theorem decodeValues_false (g : DataGroup) :
    decodeValues g false = g.data.map (fun v =>
      if v = g.nodata then CellValue.str "nodata"
      else if v = g.undetect then CellValue.str "undetect"
      else CellValue.num v) := by
  unfold decodeValues
  simp only [Bool.false_eq_true, if_false, List.map_map]
  apply List.map_congr_left
  intro v _
  by_cases hv : v = g.nodata
  · simp [hv]
  · simp only [Function.comp_apply, if_neg hv]

theorem decodeValues_true (g : DataGroup) :
    decodeValues g true = g.data.map (fun v =>
      CellValue.bool (v == 1 && !(v == g.nodata) && !(v == g.undetect))) := by
  unfold decodeValues
  simp only [if_true, List.map_map]
  apply List.map_congr_left
  intro v _
  simp only [Function.comp_apply]
  by_cases hn : v = g.nodata
  · simp [hn]
  · rw [if_neg hn]
    by_cases hu : v = g.undetect
    · simp [hu, hn]
    · have hb1 : (v == g.nodata) = false := by simp [hn]
      have hb2 : (v == g.undetect) = false := by simp [hu]
      simp [hn, hu, hb1, hb2]

theorem frictionless_bool_cell (b : Bool) :
    frictionlessCell (CellValue.bool b)
      = CellValue.str (if b then "true" else "false") := by
  cases b <;> rfl

theorem get_values_found (ds : List DataGroup) (q : String) (g : DataGroup)
    (cb : Bool) (hfind : ds.find? (fun g' => g'.quantity == q) = some g) :
    get_values ds q cb = some (decodeValues g cb) := by
  unfold get_values
  rw [hfind]

/-- **C10** — The no-data substitution runs over the whole array before the
under-detection one; with equal declared sentinels a matching element
decodes to `"nodata"`, the `"undetect"` marker is never produced, and every
other element passes through unchanged (non-boolean variable). -/
theorem get_values_equal_sentinels (ds : List DataGroup) (q : String)
    (g : DataGroup) (hfind : ds.find? (fun g' => g'.quantity == q) = some g)
    (heq : g.nodata = g.undetect) :
    get_values ds q false = some (g.data.map (fun v =>
      if v = g.nodata then CellValue.str "nodata" else CellValue.num v))
    ∧ ∀ vals, get_values ds q false = some vals →
        CellValue.str "undetect" ∉ vals := by
  have h1 := get_values_found ds q g false hfind
  have h2 : decodeValues g false = g.data.map (fun v =>
      if v = g.nodata then CellValue.str "nodata" else CellValue.num v) := by
    rw [decodeValues_false]
    apply List.map_congr_left
    intro v _
    by_cases hv : v = g.nodata
    · simp [hv]
    · rw [if_neg hv, if_neg (heq ▸ hv), if_neg hv]
  refine ⟨h1.trans (congrArg some h2), ?_⟩
  intro vals hvals hmem
  rw [h1] at hvals
  injection hvals with hvals
  rw [← hvals, h2] at hmem
  obtain ⟨v, -, hv⟩ := List.mem_map.mp hmem
  by_cases h : v = g.nodata
  · rw [if_pos h] at hv
    exact absurd (congrArg cellS hv) (by decide)
  · rw [if_neg h] at hv
    cases hv

/-- Witness for C10: a group whose nodata and undetect sentinels are both 7
decodes `[7, 3]` as `[nodata, 3]`, with no undetect marker. -/
theorem get_values_equal_sentinels_witness :
    ([(⟨"dens", 7, 7, [7, 3]⟩ : DataGroup)].find?
        (fun g' => g'.quantity == "dens") = some ⟨"dens", 7, 7, [7, 3]⟩)
    ∧ ((⟨"dens", 7, 7, [7, 3]⟩ : DataGroup).nodata
        = (⟨"dens", 7, 7, [7, 3]⟩ : DataGroup).undetect)
    ∧ get_values [⟨"dens", 7, 7, [7, 3]⟩] "dens" false
        = some [CellValue.str "nodata", CellValue.num 3] :=
  ⟨by decide, rfl,
    ((get_values_equal_sentinels [⟨"dens", 7, 7, [7, 3]⟩] "dens"
        ⟨"dens", 7, 7, [7, 3]⟩ (by decide) rfl).1).trans (by decide)⟩

/-- **C1 counterexample** — For the boolean-flagged variable `gap` with
nodata sentinel 5, the raw value 5 does *not* decode to the `"nodata"`
marker: the boolean conversion runs over the already-substituted list and
maps the marker to `False` (`"nodata" == 1` is `False` in Python), which
reaches the CSV as the cell `false`. -/
theorem get_values_bool_sentinel_counterexample :
    get_values [⟨"gap", 5, 6, [5]⟩] "gap" true = some [CellValue.bool false]
    ∧ get_values [⟨"gap", 5, 6, [5]⟩] "gap" true ≠ some [CellValue.str "nodata"]
    ∧ [CellValue.bool false].map frictionlessCell = [CellValue.str "false"] := by
  decide

/-- **C1 (amended)** — In `get_values` with `convert_to_bool`, the boolean
conversion is applied to *every* element after the sentinel substitution;
since neither marker string compares equal to 1, an element that matched a
sentinel decodes to `False` (not to a marker), so a cell is `True` exactly
when the raw value is 1 and matches neither sentinel, and the final CSV
cell of a boolean-flagged variable is always `"true"`/`"false"`, never
`"nodata"`/`"undetect"`. -/
theorem get_values_bool_conversion (ds : List DataGroup) (q : String)
    (g : DataGroup) (hfind : ds.find? (fun g' => g'.quantity == q) = some g) :
    get_values ds q true = some (g.data.map (fun v =>
      CellValue.bool (v == 1 && !(v == g.nodata) && !(v == g.undetect))))
    ∧ ∀ vals, get_values ds q true = some vals →
        vals.map frictionlessCell = g.data.map (fun v =>
          CellValue.str
            (if v = 1 ∧ v ≠ g.nodata ∧ v ≠ g.undetect then "true" else "false"))
    := by
  have h1 := get_values_found ds q g true hfind
  have h2 := decodeValues_true g
  refine ⟨h1.trans (congrArg some h2), ?_⟩
  intro vals hvals
  rw [h1] at hvals
  injection hvals with hvals
  rw [← hvals, h2, List.map_map]
  apply List.map_congr_left
  intro v _
  simp only [Function.comp_apply, frictionless_bool_cell]
  congr 1
  by_cases hv : v = 1 ∧ v ≠ g.nodata ∧ v ≠ g.undetect
  · rw [if_pos hv]
    obtain ⟨rfl, hv2, hv3⟩ := hv
    have : ((1 : ℚ) == 1 && !((1 : ℚ) == g.nodata) && !((1 : ℚ) == g.undetect))
        = true := by
      simp [hv2, hv3]
    rw [this, if_pos rfl]
  · rw [if_neg hv]
    have : (v == 1 && !(v == g.nodata) && !(v == g.undetect)) = false := by
      by_contra hb
      rw [Bool.not_eq_false] at hb
      simp only [Bool.and_eq_true, beq_iff_eq, Bool.not_eq_true',
        beq_eq_false_iff_ne, ne_eq] at hb
      exact hv ⟨hb.1.1, hb.1.2, hb.2⟩
    rw [this]
    decide

/-! ### Timestamps in `to_table` rows (C2) -/

theorem rowsOfLevels_datetime (dt : PyDatetime) :
    ∀ (ls : List Level) (rows : List CsvRow),
      rowsOfLevels dt ls = Except.ok rows →
      ∀ r ∈ rows, r.datetime = datetime_to_proper8601 dt := by
  intro ls
  induction ls with
  | nil =>
    intro rows h r hr
    unfold rowsOfLevels at h
    injection h with h
    rw [← h] at hr
    cases hr
  | cons l ls ih =>
    intro rows h r hr
    unfold rowsOfLevels at h
    cases hrow : rowOfLevel dt l with
    | error e => rw [hrow] at h; cases h
    | ok r0 =>
      rw [hrow] at h
      cases hrest : rowsOfLevels dt ls with
      | error e => rw [hrest] at h; cases h
      | ok rs =>
        rw [hrest] at h
        injection h with h
        rw [← h] at hr
        rcases List.mem_cons.mp hr with rfl | hr'
        · unfold rowOfLevel at hrow
          cases hh : l.height with
          | num q =>
            rw [hh] at hrow
            injection hrow with hrow
            rw [← hrow]
          | str s => rw [hh] at hrow; cases hrow
          | bool b => rw [hh] at hrow; cases hrow
        · exact ih rs hrest r hr'

/-- **C2** — For every profile whose datetime is UTC (offset 0) at second
precision (microsecond 0), every row `to_table` produces carries as its
timestamp the date-time rendering of that datetime with a literal trailing
`Z` (Python's `str` rendering of the fields, space-separated), and the
substring `+00:00` never occurs in it. -/
theorem to_table_timestamp_iso (p : Profile) (rows : List CsvRow)
    (hoff : p.datetime.offsetMinutes = 0) (hmicro : p.datetime.microsecond = 0)
    (hrows : to_table p = Except.ok rows) :
    ∀ r ∈ rows, r.datetime = datetimeBody p.datetime ++ "Z".data
      ∧ substr "+00:00".data r.datetime = false := by
  intro r hr
  have hdt := rowsOfLevels_datetime p.datetime p.levels rows hrows r hr
  have h := datetime_to_proper8601_utc p.datetime hoff hmicro
  rw [hdt]
  exact h

/-- Witness for C2: the sample datetime 2017-02-14 00:00:16 UTC on a
one-level profile. -/
theorem to_table_timestamp_iso_witness :
    ((⟨2017, 2, 14, 0, 0, 16, 0, 0⟩ : PyDatetime).offsetMinutes = 0)
    ∧ ((⟨2017, 2, 14, 0, 0, 16, 0, 0⟩ : PyDatetime).microsecond = 0)
    ∧ (to_table ⟨[], ⟨2017, 2, 14, 0, 0, 16, 0, 0⟩, [⟨CellValue.num 500, []⟩]⟩
        = Except.ok [⟨datetime_to_proper8601 ⟨2017, 2, 14, 0, 0, 16, 0, 0⟩, 500, []⟩])
    ∧ (datetime_to_proper8601 ⟨2017, 2, 14, 0, 0, 16, 0, 0⟩
        = datetimeBody ⟨2017, 2, 14, 0, 0, 16, 0, 0⟩ ++ "Z".data
      ∧ substr "+00:00".data
          (datetime_to_proper8601 ⟨2017, 2, 14, 0, 0, 16, 0, 0⟩) = false) :=
  ⟨rfl, rfl, by decide,
    to_table_timestamp_iso
      ⟨[], ⟨2017, 2, 14, 0, 0, 16, 0, 0⟩, [⟨CellValue.num 500, []⟩]⟩
      [⟨datetime_to_proper8601 ⟨2017, 2, 14, 0, 0, 16, 0, 0⟩, 500, []⟩]
      rfl rfl (by decide)
      ⟨datetime_to_proper8601 ⟨2017, 2, 14, 0, 0, 16, 0, 0⟩, 500, []⟩
      (List.mem_singleton.mpr rfl)⟩

/-- Witness for C1: `gap` with sentinels 5/6 and raw data `[5, 1, 3]`
decodes to `[False, True, False]`. -/
theorem get_values_bool_conversion_witness :
    ([(⟨"gap", 5, 6, [5, 1, 3]⟩ : DataGroup)].find?
        (fun g' => g'.quantity == "gap") = some ⟨"gap", 5, 6, [5, 1, 3]⟩)
    ∧ get_values [⟨"gap", 5, 6, [5, 1, 3]⟩] "gap" true
        = some [CellValue.bool false, CellValue.bool true, CellValue.bool false] :=
  ⟨by decide,
    ((get_values_bool_conversion [⟨"gap", 5, 6, [5, 1, 3]⟩] "gap"
        ⟨"gap", 5, 6, [5, 1, 3]⟩ (by decide)).1).trans (by decide)⟩

/-! ### Missing requested variables in `make_from_odim` (C5) -/

theorem lookupVars_error (ds : List DataGroup) (i : Nat) :
    ∀ specs : List (String × Bool),
      (∃ s ∈ specs, get_values ds s.1 s.2 = none) →
      ∃ e, lookupVars ds i specs = Except.error e := by
  intro specs
  induction specs with
  | nil => rintro ⟨s, hs, -⟩; cases hs
  | cons sp rest ih =>
    rintro ⟨s, hs, hnone⟩
    obtain ⟨name, cb⟩ := sp
    unfold lookupVars
    cases hg : get_values ds name cb with
    | none => exact ⟨_, rfl⟩
    | some vs =>
      dsimp only
      rcases List.mem_cons.mp hs with rfl | hrest
      · rw [hg] at hnone; cases hnone
      · cases hv : vs.get? i with
        | none => exact ⟨_, rfl⟩
        | some x =>
          dsimp only
          obtain ⟨e, he⟩ := ih ⟨s, hrest, hnone⟩
          rw [he]
          exact ⟨e, rfl⟩

/-- **C5 (amended)** — When the container's `HGHT` array is non-empty, a
requested variable whose quantity matches no sub-group makes
`make_from_odim` raise (the dict comprehension of the first level
subscripts the `None` returned by `get_values`). -/
theorem make_from_odim_missing_var (ds : List DataGroup) (dt : PyDatetime)
    (radar : List (String × String)) (heights : List CellValue)
    (hh : get_values ds "HGHT" false = some heights) (hne : heights ≠ [])
    (hmiss : ∃ s ∈ variables_to_load, get_values ds s.1 s.2 = none) :
    ∃ e, make_from_odim ds dt radar = Except.error e := by
  unfold make_from_odim
  rw [hh]
  obtain ⟨h0, hs, rfl⟩ : ∃ h0 hs, heights = h0 :: hs := by
    cases heights with
    | nil => exact absurd rfl hne
    | cons h0 hs => exact ⟨h0, hs, rfl⟩
  dsimp only
  obtain ⟨e, he⟩ := lookupVars_error ds 0 variables_to_load hmiss
  have hb : buildLevels ds 0 (h0 :: hs) = Except.error e := by
    unfold buildLevels
    rw [he]
  rw [hb]
  exact ⟨e, rfl⟩

/-- Witness for C5 (amended): a container with only a one-entry `HGHT`
group; `dens` (and every other variable) is missing, and the build
raises. -/
theorem make_from_odim_missing_var_witness :
    (get_values [(⟨"HGHT", 255, 255, [0]⟩ : DataGroup)] "HGHT" false
        = some [CellValue.num 0])
    ∧ ([CellValue.num 0] ≠ ([] : List CellValue))
    ∧ (get_values [(⟨"HGHT", 255, 255, [0]⟩ : DataGroup)] "dens" false = none)
    ∧ (∃ e, make_from_odim [⟨"HGHT", 255, 255, [0]⟩] ⟨2017, 2, 14, 0, 0, 16, 0, 0⟩ []
        = Except.error e) :=
  ⟨by decide, by decide, by decide,
    make_from_odim_missing_var [⟨"HGHT", 255, 255, [0]⟩]
      ⟨2017, 2, 14, 0, 0, 16, 0, 0⟩ [] [CellValue.num 0] (by decide) (by decide)
      ⟨("dens", false), by decide, by decide⟩⟩

/-- **C5 counterexample** — A container whose `HGHT` array is *empty*
defeats the claim: `dens` (among others) matches no sub-group, yet
`make_from_odim` returns an empty-levels Profile instead of raising — the
level loop never runs, so the missing variable is never looked up. -/
theorem make_from_odim_empty_heights_counterexample :
    get_values [(⟨"HGHT", 0, 0, []⟩ : DataGroup)] "dens" false = none
    ∧ make_from_odim [⟨"HGHT", 0, 0, []⟩] ⟨2017, 2, 14, 0, 0, 16, 0, 0⟩ []
        = Except.ok ⟨[], ⟨2017, 2, 14, 0, 0, 16, 0, 0⟩, []⟩ := by decide

/-! ### Python dict equality (C7) -/

theorem lookup_eq_some_mem {l : List (String × String)} {k v : String}
    (h : l.lookup k = some v) : (k, v) ∈ l := by
  induction l with
  | nil => cases h
  | cons kv rest ih =>
    obtain ⟨k', v'⟩ := kv
    rw [List.lookup] at h
    cases hk : (k == k') with
    | true =>
      rw [hk] at h
      injection h with h
      have : k = k' := by simpa using hk
      rw [this, ← h]
      exact List.mem_cons_self _ _
    | false =>
      rw [hk] at h
      exact List.mem_cons_of_mem _ (ih h)

theorem lookup_eq_some_of_mem_nodup {l : List (String × String)}
    (hnd : (l.map Prod.fst).Nodup) {k v : String} (h : (k, v) ∈ l) :
    l.lookup k = some v := by
  induction l with
  | nil => cases h
  | cons kv rest ih =>
    obtain ⟨k', v'⟩ := kv
    rw [List.map_cons] at hnd
    have hnd' := List.nodup_cons.mp hnd
    rcases List.mem_cons.mp h with heq | hmem
    · injection heq with h1 h2
      rw [List.lookup, h1]
      simp
      exact h2.symm ▸ rfl
    · have hne : k ≠ k' := by
        intro hkk
        apply hnd'.1
        rw [← hkk]
        exact List.mem_map.mpr ⟨(k, v), hmem, rfl⟩
      rw [List.lookup]
      rw [show (k == k') = false by simpa using hne]
      exact ih hnd'.2 hmem

/-- Under unique keys (every real Python dict), `pyDictEq` coincides with
equality of the key-to-value maps. -/
theorem pyDictEq_lookup {a b : List (String × String)}
    (ha : (a.map Prod.fst).Nodup) (hb : (b.map Prod.fst).Nodup) :
    pyDictEq a b = true ↔ ∀ k, a.lookup k = b.lookup k := by
  unfold pyDictEq
  rw [Bool.and_eq_true, List.all_eq_true, List.all_eq_true]
  constructor
  · rintro ⟨h1, h2⟩ k
    cases hak : a.lookup k with
    | some v =>
      have hm := lookup_eq_some_mem hak
      have hb1 := h1 _ hm
      simp only [beq_iff_eq] at hb1
      exact hb1.symm
    | none =>
      cases hbk : b.lookup k with
      | none => rfl
      | some w =>
        have hm := lookup_eq_some_mem hbk
        have ha1 := h2 _ hm
        simp only [beq_iff_eq] at ha1
        rw [hak] at ha1
        cases ha1
  · intro h
    constructor
    · intro kv hkv
      have := lookup_eq_some_of_mem_nodup ha hkv
      simp only [beq_iff_eq]
      rw [← h kv.1]
      exact this
    · intro kv hkv
      have := lookup_eq_some_of_mem_nodup hb hkv
      simp only [beq_iff_eq]
      rw [h kv.1]
      exact this

theorem head_getD_mem {l : List Profile} (h : l ≠ []) (d : Profile) :
    l.head?.getD d ∈ l := by
  cases l with
  | nil => exact absurd rfl h
  | cons x xs => exact List.mem_cons_self _ _

/-- **C7 (amended)** — With two profiles carrying differing radar-identity
dicts, the consistency check of `cli` stops the run with
`sys.exit(EXIT_INCONSISTENT_METADATA)` after echoing the *fixed* message
(which does not name the conflicting values), and no output file has been
produced; when every profile's identity equals the first (sorted) profile's,
the check passes (the run proceeds past it). -/
theorem cli_radar_consistency (ps : List Profile) (outputDir : String)
    (hnodup : ∀ p ∈ ps, (p.radar_identifiers.map Prod.fst).Nodup) :
    ((∃ p ∈ ps, ∃ q ∈ ps,
        pyDictEq p.radar_identifiers q.radar_identifiers = false) →
      cliFromProfiles ps outputDir
        = (CliStop.sysExit EXIT_INCONSISTENT_METADATA inconsistentMsg, []))
    ∧ ((∀ p ∈ ps, pyDictEq p.radar_identifiers
          ((sortProfiles ps).head?.getD defaultProfile).radar_identifiers = true) →
      (cliFromProfiles ps outputDir).1
        ≠ CliStop.sysExit EXIT_INCONSISTENT_METADATA inconsistentMsg) := by
  constructor
  · rintro ⟨p, hp, q, hq, hne⟩
    have hpsne : ps ≠ [] := fun h => by rw [h] at hp; cases hp
    have hspsne : sortProfiles ps ≠ [] := by
      intro h
      have : p ∈ sortProfiles ps := (List.mem_insertionSort profLe).mpr hp
      rw [h] at this
      cases this
    set hd := (sortProfiles ps).head?.getD defaultProfile with hhd
    have hhdmem : hd ∈ ps :=
      (List.mem_insertionSort profLe).mp (head_getD_mem hspsne _)
    by_cases hall : ((sortProfiles ps).all fun r =>
        pyDictEq r.radar_identifiers hd.radar_identifiers) = true
    · exfalso
      rw [List.all_eq_true] at hall
      have hp' := hall p ((List.mem_insertionSort profLe).mpr hp)
      have hq' := hall q ((List.mem_insertionSort profLe).mpr hq)
      have hphd := (pyDictEq_lookup (hnodup p hp) (hnodup hd hhdmem)).mp hp'
      have hqhd := (pyDictEq_lookup (hnodup q hq) (hnodup hd hhdmem)).mp hq'
      have : pyDictEq p.radar_identifiers q.radar_identifiers = true :=
        (pyDictEq_lookup (hnodup p hp) (hnodup q hq)).mpr
          (fun k => (hphd k).trans (hqhd k).symm)
      rw [hne] at this
      cases this
    · unfold cliFromProfiles
      rw [Bool.not_eq_true] at hall
      rw [← hhd, hall]
      rfl
  · intro hall
    have hall' : ((sortProfiles ps).all fun r =>
        pyDictEq r.radar_identifiers
          ((sortProfiles ps).head?.getD defaultProfile).radar_identifiers) = true := by
      rw [List.all_eq_true]
      intro r hr
      exact hall r ((List.mem_insertionSort profLe).mp hr)
    unfold cliFromProfiles
    rw [hall', if_pos rfl]
    cases tablesOfProfiles (sortProfiles ps) with
    | error e => exact fun hc => nomatch hc
    | ok t =>
      cases cliSaveStep t outputDir with
      | error e => exact fun hc => nomatch hc
      | ok files => exact fun hc => nomatch hc

/-- **C7 counterexample** — Two profiles with radar identities `bejab` and
`bewid`: the run exits with code 3 and the fixed message, which names
*neither* conflicting value. -/
theorem cli_radar_consistency_counterexample :
    cliFromProfiles
        [⟨[("NOD", "bejab")], ⟨2017, 2, 14, 0, 0, 16, 0, 0⟩, []⟩,
         ⟨[("NOD", "bewid")], ⟨2017, 2, 14, 0, 0, 16, 0, 0⟩, []⟩] "vpts_out"
      = (CliStop.sysExit EXIT_INCONSISTENT_METADATA inconsistentMsg, [])
    ∧ substr "bejab".data inconsistentMsg.data = false
    ∧ substr "bewid".data inconsistentMsg.data = false := by
  decide

/-- Witness for C7: the same two-profile input satisfies the amended
theorem's hypotheses. -/
theorem cli_radar_consistency_witness :
    (∀ p ∈ [(⟨[("NOD", "bejab")], ⟨2017, 2, 14, 0, 0, 16, 0, 0⟩, []⟩ : Profile),
            ⟨[("NOD", "bewid")], ⟨2017, 2, 14, 0, 0, 16, 0, 0⟩, []⟩],
        (p.radar_identifiers.map Prod.fst).Nodup)
    ∧ cliFromProfiles
        [⟨[("NOD", "bejab")], ⟨2017, 2, 14, 0, 0, 16, 0, 0⟩, []⟩,
         ⟨[("NOD", "bewid")], ⟨2017, 2, 14, 0, 0, 16, 0, 0⟩, []⟩] "vpts_out"
      = (CliStop.sysExit EXIT_INCONSISTENT_METADATA inconsistentMsg, []) :=
  ⟨by decide,
    (cli_radar_consistency
      [⟨[("NOD", "bejab")], ⟨2017, 2, 14, 0, 0, 16, 0, 0⟩, []⟩,
       ⟨[("NOD", "bewid")], ⟨2017, 2, 14, 0, 0, 16, 0, 0⟩, []⟩] "vpts_out"
      (by decide)).1
      ⟨⟨[("NOD", "bejab")], ⟨2017, 2, 14, 0, 0, 16, 0, 0⟩, []⟩, by decide,
       ⟨[("NOD", "bewid")], ⟨2017, 2, 14, 0, 0, 16, 0, 0⟩, []⟩, by decide,
       by decide⟩⟩

/-! ### Ordering invariants of profiles and the aggregated table (C6) -/

theorem cellQ_of_isStr {c : CellValue} (h : cellIsStr c = true) : cellQ c = 0 := by
  cases c <;> simp [cellIsStr] at h <;> rfl

theorem sortLevels_chain (ls out : List Level)
    (h : sortLevels ls = Except.ok out) : out.Chain' levelNumLe := by
  unfold sortLevels at h
  by_cases h1 : (ls.all fun l => cellIsNum l.height) = true
  · rw [if_pos h1] at h
    injection h with h
    rw [← h]
    exact (List.sorted_insertionSort levelNumLe ls).chain'
  · rw [if_neg h1] at h
    by_cases h2 : (ls.all fun l => cellIsStr l.height) = true
    · rw [if_pos h2] at h
      injection h with h
      rw [← h]
      apply List.Pairwise.chain'
      apply List.pairwise_of_forall_mem_list
      intro a ha b hb
      rw [List.all_eq_true] at h2
      have hqa := cellQ_of_isStr (h2 a ((List.mem_insertionSort levelStrLe).mp ha))
      have hqb := cellQ_of_isStr (h2 b ((List.mem_insertionSort levelStrLe).mp hb))
      unfold levelNumLe
      rw [hqa, hqb]
    · rw [if_neg h2] at h
      cases h

theorem make_from_odim_levels_chain (ds : List DataGroup) (dt : PyDatetime)
    (radar : List (String × String)) (p : Profile)
    (h : make_from_odim ds dt radar = Except.ok p) :
    p.levels.Chain' levelNumLe := by
  unfold make_from_odim at h
  cases hh : get_values ds "HGHT" false with
  | none => rw [hh] at h; cases h
  | some heights =>
    rw [hh] at h
    dsimp only at h
    cases hb : buildLevels ds 0 heights with
    | error e => rw [hb] at h; cases h
    | ok levels =>
      rw [hb] at h
      dsimp only at h
      cases hs : sortLevels levels with
      | error e => rw [hs] at h; cases h
      | ok out =>
        rw [hs] at h
        injection h with h
        rw [← h]
        exact sortLevels_chain levels out hs

theorem chain'_flatMap_profiles (l : List Profile)
    (hst : l.Pairwise (fun a b => pyDtLt a.datetime b.datetime = true))
    (hlev : ∀ p ∈ l, p.levels.Chain' levelNumLe) :
    (l.flatMap (fun p => p.levels.map
      (fun lv => (p.datetime, cellQ lv.height)))).Chain' pairLe := by
  induction l with
  | nil => exact List.chain'_nil
  | cons p rest ih =>
    rw [List.flatMap_cons, List.chain'_append]
    refine ⟨?_,
      ih (List.pairwise_cons.mp hst).2
        (fun q hq => hlev q (List.mem_cons_of_mem _ hq)), ?_⟩
    · rw [List.chain'_map]
      exact List.Chain'.imp (fun a b hab => Or.inr ⟨rfl, hab⟩)
        (hlev p (List.mem_cons_self _ _))
    · intro x hx y hy
      obtain ⟨hxne, hxeq⟩ := List.mem_getLast?_eq_getLast hx
      have hxmem : x ∈ p.levels.map (fun lv => (p.datetime, cellQ lv.height)) :=
        hxeq ▸ List.getLast_mem hxne
      obtain ⟨lv, -, hlveq⟩ := List.mem_map.mp hxmem
      have hx1 : x.1 = p.datetime := by rw [← hlveq]
      obtain ⟨q, hq, hyq⟩ := List.mem_flatMap.mp (List.mem_of_mem_head? hy)
      obtain ⟨lw, -, hlweq⟩ := List.mem_map.mp hyq
      have hy1 : y.1 = q.datetime := by rw [← hlweq]
      left
      rw [hx1, hy1]
      exact (List.pairwise_cons.mp hst).1 q hq

/-- **C6 (amended)** — Every Profile built by `make_from_odim` has its
levels non-decreasing in height (the marker-height corner decodes all
heights to markers, whose numeric view is constantly 0, so the chain also
holds there); and the aggregated `(timestamp, height)` row projection of a
profile list is non-decreasing in the pair *provided the profiles'
timestamps are pairwise distinct* — two profiles sharing a timestamp each
restart their own height ramp, breaking the pair order. -/
theorem profile_table_order :
    (∀ (ds : List DataGroup) (dt : PyDatetime)
        (radar : List (String × String)) (p : Profile),
      make_from_odim ds dt radar = Except.ok p → p.levels.Chain' levelNumLe)
    ∧ (∀ ps : List Profile,
        (∀ p ∈ ps, p.levels.Chain' levelNumLe) →
        ps.Pairwise (fun a b => dtFields a.datetime ≠ dtFields b.datetime) →
        (tablePairs ps).Chain' pairLe) := by
  refine ⟨make_from_odim_levels_chain, ?_⟩
  intro ps hlev hdist
  unfold tablePairs
  apply chain'_flatMap_profiles
  · have hsorted : (sortProfiles ps).Pairwise profLe :=
      List.sorted_insertionSort profLe ps
    have hdist' : (sortProfiles ps).Pairwise
        (fun a b => dtFields a.datetime ≠ dtFields b.datetime) :=
      ((List.perm_insertionSort profLe ps).pairwise_iff
        (fun hxy => Ne.symm hxy)).mpr hdist
    exact (hsorted.and hdist').imp
      (fun hab => pyDtLt_of_le_of_ne hab.1 hab.2)
  · intro q hq
    exact hlev q ((List.mem_insertionSort profLe).mp hq)

/-- A container holding every requested quantity with the two-level arrays
`[0, 100]` (sentinels 255/254 unused). -/
def sampleDataset : List DataGroup :=
  ⟨"HGHT", 255, 254, [0, 100]⟩ ::
    variables_to_load.map (fun s => ⟨s.1, 255, 254, [0, 100]⟩)

def sampleVars (v : ℚ) : List (String × CellValue) :=
  variables_to_load.map (fun s =>
    (s.1, if s.2 then CellValue.bool (v == 1) else CellValue.num v))

/-- The profile `make_from_odim` extracts from `sampleDataset`. -/
def sampleProfile : Profile :=
  ⟨[("NOD", "bejab")], ⟨2017, 2, 14, 0, 0, 16, 0, 0⟩,
    [⟨CellValue.num 0, sampleVars 0⟩, ⟨CellValue.num 100, sampleVars 100⟩]⟩

/-- **C6 counterexample** — Two copies of one `make_from_odim`-produced
profile (same timestamp) aggregated together: the second copy restarts the
height ramp, so the row pairs `(t,0),(t,100),(t,0),(t,100)` are *not*
non-decreasing in `(timestamp, height)`. -/
theorem table_pairs_counterexample :
    make_from_odim sampleDataset ⟨2017, 2, 14, 0, 0, 16, 0, 0⟩ [("NOD", "bejab")]
      = Except.ok sampleProfile
    ∧ ¬ (tablePairs [sampleProfile, sampleProfile]).Chain' pairLe := by
  constructor
  · decide
  · intro h
    rw [show tablePairs [sampleProfile, sampleProfile]
        = [(⟨2017, 2, 14, 0, 0, 16, 0, 0⟩, 0), (⟨2017, 2, 14, 0, 0, 16, 0, 0⟩, 100),
           (⟨2017, 2, 14, 0, 0, 16, 0, 0⟩, 0), (⟨2017, 2, 14, 0, 0, 16, 0, 0⟩, 100)]
      from by decide] at h
    have hbad := (List.chain'_cons.mp (List.chain'_cons.mp h).2).1
    rcases hbad with hlt | ⟨-, hle⟩
    · exact absurd hlt (by decide)
    · exact absurd hle (by decide)

/-- Witness for C6: two profiles with distinct timestamps, heights
`[0, 100]` each; the aggregated pair list is non-decreasing. -/
theorem profile_table_order_witness :
    (∀ p ∈ [(⟨[], ⟨2017, 2, 14, 0, 0, 16, 0, 0⟩,
              [⟨CellValue.num 0, []⟩, ⟨CellValue.num 100, []⟩]⟩ : Profile),
            ⟨[], ⟨2017, 2, 14, 0, 5, 16, 0, 0⟩,
              [⟨CellValue.num 0, []⟩, ⟨CellValue.num 100, []⟩]⟩],
        p.levels.Chain' levelNumLe)
    ∧ [(⟨[], ⟨2017, 2, 14, 0, 0, 16, 0, 0⟩,
          [⟨CellValue.num 0, []⟩, ⟨CellValue.num 100, []⟩]⟩ : Profile),
        ⟨[], ⟨2017, 2, 14, 0, 5, 16, 0, 0⟩,
          [⟨CellValue.num 0, []⟩, ⟨CellValue.num 100, []⟩]⟩].Pairwise
        (fun a b => dtFields a.datetime ≠ dtFields b.datetime)
    ∧ (tablePairs
        [(⟨[], ⟨2017, 2, 14, 0, 0, 16, 0, 0⟩,
            [⟨CellValue.num 0, []⟩, ⟨CellValue.num 100, []⟩]⟩ : Profile),
          ⟨[], ⟨2017, 2, 14, 0, 5, 16, 0, 0⟩,
            [⟨CellValue.num 0, []⟩, ⟨CellValue.num 100, []⟩]⟩]).Chain' pairLe := by
  have h1 : ∀ p ∈ [(⟨[], ⟨2017, 2, 14, 0, 0, 16, 0, 0⟩,
              [⟨CellValue.num 0, []⟩, ⟨CellValue.num 100, []⟩]⟩ : Profile),
            ⟨[], ⟨2017, 2, 14, 0, 5, 16, 0, 0⟩,
              [⟨CellValue.num 0, []⟩, ⟨CellValue.num 100, []⟩]⟩],
      p.levels.Chain' levelNumLe := by
    intro p hp
    rcases List.mem_cons.mp hp with rfl | hp'
    · exact List.chain'_cons.mpr ⟨by decide, List.chain'_singleton _⟩
    · rcases List.mem_cons.mp hp' with rfl | hp''
      · exact List.chain'_cons.mpr ⟨by decide, List.chain'_singleton _⟩
      · cases hp''
  have h2 : [(⟨[], ⟨2017, 2, 14, 0, 0, 16, 0, 0⟩,
          [⟨CellValue.num 0, []⟩, ⟨CellValue.num 100, []⟩]⟩ : Profile),
        ⟨[], ⟨2017, 2, 14, 0, 5, 16, 0, 0⟩,
          [⟨CellValue.num 0, []⟩, ⟨CellValue.num 100, []⟩]⟩].Pairwise
        (fun a b => dtFields a.datetime ≠ dtFields b.datetime) := by
    refine List.pairwise_cons.mpr ⟨?_, List.pairwise_singleton _ _⟩
    intro q hq
    rcases List.mem_cons.mp hq with rfl | hq'
    · decide
    · cases hq'
  exact ⟨h1, h2, profile_table_order.2 _ h1 h2⟩

/-! ### The monthly concatenation (C4) -/

/-- Every daily key whose embedded year+month is the target month contains
the target digits as an infix, hence passes the `find >= 0` filter. -/
theorem dailyCsvKey_month_kept (source radar yyyy mm dd : String)
    (file_list : List (List Char))
    (hmem : dailyCsvKey source radar yyyy mm dd ∈ file_list) :
    dailyCsvKey source radar yyyy mm dd ∈ monthlyFilter yyyy mm file_list := by
  apply List.mem_filter.mpr
  refine ⟨hmem, ?_⟩
  have hshape : dailyCsvKey source radar yyyy mm dd
      = (source.data ++ "/daily/".data ++ radar.data ++ "/".data ++ source.data
          ++ "_".data ++ radar.data ++ "_vp_".data)
        ++ (yyyy.data ++ mm.data) ++ (dd.data ++ ".csv".data) := by
    simp [dailyCsvKey, List.append_assoc]
  rw [hshape]
  exact substr_embedded _ _ _

/-- **C4 (amended)** — The monthly loop keeps exactly the listed keys in
which the concatenated `year+month` digits occur as a substring (a superset
of the keys whose embedded month equals the target; the filter is substring
containment, not equality of the embedded month), sorts them
lexicographically, and the written monthly CSV is the single shared header
followed by the concatenation of the kept files' data rows in that
order — no header duplication, no row loss. -/
theorem monthly_build_spec (content : List Char → CsvFile) (yyyy mm : String)
    (file_list : List (List Char)) (H : List String)
    (hne : monthlyFilesToConcat yyyy mm file_list ≠ [])
    (hH : ∀ f ∈ monthlyFilesToConcat yyyy mm file_list, (content f).header = H) :
    monthlyBuild content yyyy mm file_list
      = Except.ok ⟨H, (monthlyFilesToConcat yyyy mm file_list).flatMap
          (fun f => (content f).rows)⟩
    ∧ List.Sorted keyLe (monthlyFilesToConcat yyyy mm file_list)
    ∧ (∀ source radar dd,
        dailyCsvKey source radar yyyy mm dd ∈ file_list →
        dailyCsvKey source radar yyyy mm dd
          ∈ monthlyFilesToConcat yyyy mm file_list) := by
  refine ⟨?_, List.sorted_insertionSort keyLe _, ?_⟩
  · cases hc : monthlyFilesToConcat yyyy mm file_list with
    | nil => exact absurd hc hne
    | cons k ks =>
      have hk : (content k).header = H := hH k (hc ▸ List.mem_cons_self _ _)
      have hall : ((k :: ks).all fun f =>
          decide ((content f).header = (content k).header)) = true := by
        rw [List.all_eq_true]
        intro f hf
        rw [decide_eq_true_eq, hH f (hc ▸ hf), hk]
      unfold monthlyBuild
      rw [hc]
      dsimp only
      rw [hall, if_pos rfl, hk]
  · intro source radar dd hmem
    exact (List.mem_insertionSort keyLe).mpr
      (dailyCsvKey_month_kept source radar yyyy mm dd file_list hmem)

/-- **C4 counterexample** — The filter is substring search, not embedded-
month equality: building the (syntactically valid) target month year 1903,
month 10, the daily key of *March 2019* is kept, because the digit run
`190310` occurs inside its `20190310` date at offset 2.  Hence the kept set
is not "exactly the keys whose embedded year+month equals the target". -/
theorem monthly_filter_counterexample :
    monthlyFilter "1903" "10" [dailyCsvKey "s" "r" "2019" "03" "10"]
      = [dailyCsvKey "s" "r" "2019" "03" "10"]
    ∧ ¬ ("2019" = "1903" ∧ "03" = "10") := by
  constructor
  · decide
  · rintro ⟨h, -⟩
    exact absurd h (by decide)

/-- Witness for C4: one daily key of October 2022, target month 2022-10. -/
theorem monthly_build_spec_witness :
    (monthlyFilesToConcat "2022" "10" [dailyCsvKey "baltrad" "bejab" "2022" "10" "05"] ≠ [])
    ∧ (∀ f ∈ monthlyFilesToConcat "2022" "10"
          [dailyCsvKey "baltrad" "bejab" "2022" "10" "05"],
        ((fun _ => (⟨["datetime", "height"], [["t1", "0"]]⟩ : CsvFile)) f).header
          = ["datetime", "height"])
    ∧ monthlyBuild (fun _ => ⟨["datetime", "height"], [["t1", "0"]]⟩) "2022" "10"
        [dailyCsvKey "baltrad" "bejab" "2022" "10" "05"]
      = Except.ok ⟨["datetime", "height"], [["t1", "0"]]⟩ := by
  refine ⟨by decide, by decide, ?_⟩
  have h := (monthly_build_spec (fun _ => ⟨["datetime", "height"], [["t1", "0"]]⟩)
    "2022" "10" [dailyCsvKey "baltrad" "bejab" "2022" "10" "05"]
    ["datetime", "height"] (by decide) (by decide)).1
  exact h.trans (by decide)

end Vpts
